import Mathlib

/-!
Verification development for the jinja2 runtime module (`jinja2/runtime.py`).

The Python source is shallowly embedded: each class becomes a structure or
inductive type, each method a pure function; methods that can raise return
`Except PyErr`.  Python dicts are modelled as association lists with unique
keys, list indexing (including negative indices) via `pyIndex`, and the
`Undefined` object hierarchy via an `UndefKind` tag together with the field
tuple `(hint, obj, name, exc)` carried by `Value.undef`.

One modelling note: Python `%r` formatting quotes strings with apostrophes.
We render reprs without the surrounding quote characters; this affects only
the literal text of diagnostic messages, never control flow.
-/

set_option maxHeartbeats 1000000

namespace JinjaRuntime

/-- The three undefined policies: `Undefined` (lenient, the default),
`DebugUndefined`, and `StrictUndefined`. -/
inductive UndefKind where
  | lenient
  | debug
  | strict
deriving DecidableEq, Repr

/-- Python exception classes that the runtime raises or catches. -/
inductive ExcClass where
  | undefinedError
  | typeError
  | valueError
  | keyError
  | indexError
deriving DecidableEq, Repr

/-- A raised Python exception: class plus message. -/
structure PyErr where
  cls : ExcClass
  msg : String
deriving DecidableEq, Repr

/-- Runtime values.  `undef kind hint obj nm exc` models an instance of the
`Undefined` class hierarchy with its four slots `_undefined_hint`,
`_undefined_obj`, `_undefined_name`, `_undefined_exception`; `kind` selects
the concrete class. -/
inductive Value where
  | none : Value
  | bool : Bool → Value
  | int : Int → Value
  | str : String → Value
  | list : List Value → Value
  | dict : List (String × Value) → Value
  | undef (kind : UndefKind) (hint : Option String) (obj : Option Value)
      (nm : Option Value) (exc : ExcClass) : Value

/-- Python `isinstance(v, Undefined)` — true for all three undefined classes. -/
def Value.isUndef : Value → Bool
  | Value.undef _ _ _ _ _ => true
  | _ => false

/-- Python `v is None` in Python. -/
def Value.isNone : Value → Bool
  | Value.none => true
  | _ => false

/-- Python `type(v).__name__`, used only in diagnostic messages. -/
def pyClassName : Value → String
  | Value.none => "NoneType"
  | Value.bool _ => "bool"
  | Value.int _ => "int"
  | Value.str _ => "str"
  | Value.list _ => "tuple"
  | Value.dict _ => "dict"
  | Value.undef UndefKind.lenient _ _ _ _ => "Undefined"
  | Value.undef UndefKind.debug _ _ _ _ => "DebugUndefined"
  | Value.undef UndefKind.strict _ _ _ _ => "StrictUndefined"

/-- Python `repr`, with string quote characters omitted (see file header). -/
def pyRepr : Value → String
  | Value.none => "None"
  | Value.bool b => if b then "True" else "False"
  | Value.int n => toString n
  | Value.str s => s
  | Value.list _ => "<tuple>"
  | Value.dict _ => "<dict>"
  | Value.undef _ _ _ _ _ => "Undefined"

/-- Python `str`, matching `repr` on everything the messages use. -/
def pyStr : Value → String
  | Value.str s => s
  | v => pyRepr v

/-- A Python dict as an association list (unique keys, insertion order). -/
abbrev Dict := List (String × Value)

/-- Python `key in d` / `d[key]` for a string-keyed mapping. -/
def alookup {α : Type} : List (String × α) → String → Option α
  | [], _ => Option.none
  | kv :: rest, k => if kv.1 = k then Option.some kv.2 else alookup rest k

/-- Python `d.pop(key)`: the mapping with `key` removed (all occurrences, since a
Python dict holds a key at most once). -/
def derase : Dict → String → Dict
  | [], _ => []
  | kv :: rest, k => if kv.1 = k then derase rest k else kv :: derase rest k

/-- Boolean membership in a list of strings. -/
def memStr : List String → String → Bool
  | [], _ => false
  | x :: rest, s => if x = s then true else memStr rest s

/-- Drop every entry of a mapping whose key occurs in `names`. -/
def dropKeys : Dict → List String → Dict
  | [], _ => []
  | kv :: rest, names =>
    if memStr names kv.1 then dropKeys rest names
    else kv :: dropKeys rest names

/-- Python list indexing: non-negative indices from the front, negative
indices from the back, out of range gives `none` (an `IndexError`). -/
def pyIndex {α : Type} (l : List α) (i : Int) : Option α :=
  if 0 ≤ i then l.get? i.toNat
  else
    let j : Int := (l.length : Int) + i
    if 0 ≤ j then l.get? j.toNat else Option.none

/-- The message-selection logic of `fail_with_undefined_error`: an explicit
hint wins; else with no owning object the name is reported undefined; else
a non-string name gives the "no element" form, a string name the
"no attribute" form. -/
def undefMsg (hint : Option String) (obj : Option Value) (nm : Option Value) : String :=
  match hint with
  | Option.some h => h
  | Option.none =>
    match obj with
    | Option.none => pyRepr (nm.getD Value.none) ++ " is undefined"
    | Option.some ov =>
      match nm with
      | Option.some (Value.str s) =>
        pyClassName ov ++ " object has no attribute " ++ s
      | _ => pyClassName ov ++ " object has no element " ++ pyRepr (nm.getD Value.none)

/-- Python `fail_with_undefined_error`: raise the stored exception class with the
selected message. -/
def failUndef (hint : Option String) (obj nm : Option Value) (exc : ExcClass) : PyErr :=
  ⟨exc, undefMsg hint obj nm⟩

/-- Python `__add__` (and every other binary arithmetic trap): always fails, for
all three undefined classes. -/
def uAdd (_kind : UndefKind) (hint : Option String) (obj nm : Option Value)
    (exc : ExcClass) (_other : Value) : Except PyErr Value :=
  Except.error (failUndef hint obj nm exc)

/-- Python `__mul__`: always fails. -/
def uMul (_kind : UndefKind) (hint : Option String) (obj nm : Option Value)
    (exc : ExcClass) (_other : Value) : Except PyErr Value :=
  Except.error (failUndef hint obj nm exc)

/-- Python `__mod__`: always fails. -/
def uMod (_kind : UndefKind) (hint : Option String) (obj nm : Option Value)
    (exc : ExcClass) (_other : Value) : Except PyErr Value :=
  Except.error (failUndef hint obj nm exc)

/-- Python `__neg__`: always fails. -/
def uNeg (_kind : UndefKind) (hint : Option String) (obj nm : Option Value)
    (exc : ExcClass) : Except PyErr Value :=
  Except.error (failUndef hint obj nm exc)

/-- Python `__lt__` (and `__le__`, `__gt__`, `__ge__` identically): always fails. -/
def uLt (_kind : UndefKind) (hint : Option String) (obj nm : Option Value)
    (exc : ExcClass) (_other : Value) : Except PyErr Bool :=
  Except.error (failUndef hint obj nm exc)

/-- Python `__getattr__`: always fails. -/
def uGetattr (_kind : UndefKind) (hint : Option String) (obj nm : Option Value)
    (exc : ExcClass) (_attr : String) : Except PyErr Value :=
  Except.error (failUndef hint obj nm exc)

/-- Python `__getitem__`: always fails. -/
def uGetitem (_kind : UndefKind) (hint : Option String) (obj nm : Option Value)
    (exc : ExcClass) (_key : Value) : Except PyErr Value :=
  Except.error (failUndef hint obj nm exc)

/-- Python `__call__`: always fails. -/
def uInvoke (_kind : UndefKind) (hint : Option String) (obj nm : Option Value)
    (exc : ExcClass) (_args : List Value) : Except PyErr Value :=
  Except.error (failUndef hint obj nm exc)

/-- Python `__unicode__`: empty text for the lenient class, the debug placeholder
for `DebugUndefined`, a failure for `StrictUndefined`. -/
def uUnicode (kind : UndefKind) (hint : Option String) (obj nm : Option Value)
    (exc : ExcClass) : Except PyErr String :=
  match kind with
  | UndefKind.lenient => Except.ok ""
  | UndefKind.debug =>
    Except.ok
      (match hint with
       | Option.none =>
         match obj with
         | Option.none => "\x7b\x7b " ++ pyStr (nm.getD Value.none) ++ " \x7d\x7d"
         | Option.some ov =>
           "\x7b\x7b no such element: " ++ pyClassName ov ++ "[" ++
             pyRepr (nm.getD Value.none) ++ "] \x7d\x7d"
       | Option.some h => "\x7b\x7b undefined value printed: " ++ h ++ " \x7d\x7d")
  | UndefKind.strict => Except.error (failUndef hint obj nm exc)

/-- Python `__str__` encodes `__unicode__` as UTF-8; the text is unchanged. -/
def uStr (kind : UndefKind) (hint : Option String) (obj nm : Option Value)
    (exc : ExcClass) : Except PyErr String :=
  uUnicode kind hint obj nm exc

/-- Python `__len__`: `0` except for the strict class, which fails. -/
def uLen (kind : UndefKind) (hint : Option String) (obj nm : Option Value)
    (exc : ExcClass) : Except PyErr Int :=
  match kind with
  | UndefKind.strict => Except.error (failUndef hint obj nm exc)
  | _ => Except.ok 0

/-- Python `__iter__`: yields nothing except for the strict class, which fails. -/
def uIter (kind : UndefKind) (hint : Option String) (obj nm : Option Value)
    (exc : ExcClass) : Except PyErr (List Value) :=
  match kind with
  | UndefKind.strict => Except.error (failUndef hint obj nm exc)
  | _ => Except.ok []

/-- Python `__nonzero__`: `False` except for the strict class, which fails. -/
def uNonzero (kind : UndefKind) (hint : Option String) (obj nm : Option Value)
    (exc : ExcClass) : Except PyErr Bool :=
  match kind with
  | UndefKind.strict => Except.error (failUndef hint obj nm exc)
  | _ => Except.ok false

/-- Python `__eq__`: not overridden for `Undefined`/`DebugUndefined`, so Python
falls back to default object equality (reference identity, supplied here
as `sameObject`); overridden to fail for `StrictUndefined`. -/
def uEq (kind : UndefKind) (hint : Option String) (obj nm : Option Value)
    (exc : ExcClass) (sameObject : Bool) : Except PyErr Bool :=
  match kind with
  | UndefKind.strict => Except.error (failUndef hint obj nm exc)
  | _ => Except.ok sameObject

/-- Python `__ne__`: the complement of default equality, except for the strict
class which fails. -/
def uNe (kind : UndefKind) (hint : Option String) (obj nm : Option Value)
    (exc : ExcClass) (sameObject : Bool) : Except PyErr Bool :=
  match kind with
  | UndefKind.strict => Except.error (failUndef hint obj nm exc)
  | _ => Except.ok (!sameObject)

/-- The environment capability this runtime reads: the autoescape flag and
the configured undefined class. -/
structure Environment where
  autoescape : Bool
  undefKind : UndefKind
deriving DecidableEq, Repr

/-- The `environment.undefined(hint, obj, name)` factory: builds an instance
of the configured undefined class with `UndefinedError` as the exception. -/
def Environment.undefined (env : Environment) (hint : Option String)
    (obj : Option Value) (nm : Option Value) : Value :=
  Value.undef env.undefKind hint obj nm ExcClass.undefinedError

/-- The template context (`class Context`).  `parent` is the immutable outer
mapping, `vars` the locally bound variables, `blocks` the inheritance
registry mapping a block name to its layers, most-derived first.  Block
functions are identified by numeric tokens (Python compares them by object
identity in `list.index`). -/
structure Context where
  environment : Environment
  parent : Dict
  vars : Dict
  exported_vars : List String
  name : Option String
  blocks : List (String × List Nat)

/-- Python `Context.resolve`: `vars` first, then `parent`, else a fresh undefined
value carrying the looked-up name. -/
def Context.resolve (c : Context) (key : String) : Value :=
  match alookup c.vars key with
  | Option.some v => v
  | Option.none =>
    match alookup c.parent key with
    | Option.some v => v
    | Option.none =>
      c.environment.undefined Option.none Option.none (Option.some (Value.str key))

/-- Python `Context.__getitem__`: resolve, raising `KeyError` on an undefined
result. -/
def Context.getitem (c : Context) (key : String) : Except PyErr Value :=
  let item := c.resolve key
  if item.isUndef then Except.error ⟨ExcClass.keyError, key⟩
  else Except.ok item

/-- Python `Context.get`: `__getitem__` with the `KeyError` caught and replaced by
`default`. -/
def Context.get (c : Context) (key : String) (default : Value) : Value :=
  match c.getitem key with
  | Except.ok v => v
  | Except.error _ => default

/-- Python `Context.__contains__`. -/
def Context.contains (c : Context) (key : String) : Bool :=
  (alookup c.vars key).isSome || (alookup c.parent key).isSome

/-- Python `list.index(x)`: index of the first occurrence, `ValueError` if absent. -/
def idxOf? : List Nat → Nat → Option Nat
  | [], _ => Option.none
  | x :: rest, y =>
    if x = y then Option.some 0
    else (idxOf? rest y).map (fun i => i + 1)

/-- What `Context.super` (and `TemplateReference.__getitem__`) return on
success: either a zero-argument renderer closed over one block layer, the
block name and the autoescape choice, or an undefined value. -/
inductive SuperResult where
  | renderer (blk : Nat) (name : String) (autoescape : Bool)
  | undefined (v : Value)

/-- Invoking a returned renderer: `wrap(concat(block(self)))` — the joined
fragments of exactly the one closed-over block layer (`out` gives each block
fragment output of each block function on the current context). -/
def SuperResult.render (out : Nat → List String) : SuperResult → Option String
  | SuperResult.renderer b _ _ => Option.some (String.join (out b))
  | SuperResult.undefined _ => Option.none

/-- The undefined value `Context.super` returns when no parent layer is
found. -/
def noParentBlock (c : Context) (name : String) : Value :=
  c.environment.undefined
    (Option.some ("there is no parent block called " ++ name ++ "."))
    Option.none (Option.some (Value.str "super"))

/-- Python `Context.super(name, current)`.  The `try` block catches `LookupError`
(`KeyError` from the dict access, `IndexError` from the `+ 1` list access)
and returns an undefined value; a `ValueError` from `list.index` — raised
when `current` does not occur among the layers — is not a `LookupError` and
propagates. -/
def Context.super (c : Context) (name : String) (current : Nat) :
    Except PyErr SuperResult :=
  match alookup c.blocks name with
  | Option.none => Except.ok (SuperResult.undefined (noParentBlock c name))
  | Option.some layers =>
    match idxOf? layers current with
    | Option.none => Except.error ⟨ExcClass.valueError, "list.index(x): x not in list"⟩
    | Option.some i =>
      match layers.get? (i + 1) with
      | Option.some b =>
        Except.ok (SuperResult.renderer b name c.environment.autoescape)
      | Option.none => Except.ok (SuperResult.undefined (noParentBlock c name))

/-- Python `TemplateReference.__getitem__`: `blocks[name][0]` — the most-derived
layer, with `KeyError` (missing name) and `IndexError` (empty layer list)
propagating; there is no undefined-value fallback here. -/
def TemplateReference.getitem (c : Context) (name : String) :
    Except PyErr SuperResult :=
  match alookup c.blocks name with
  | Option.none => Except.error ⟨ExcClass.keyError, name⟩
  | Option.some layers =>
    match layers.get? 0 with
    | Option.none => Except.error ⟨ExcClass.indexError, "list index out of range"⟩
    | Option.some b =>
      Except.ok (SuperResult.renderer b name c.environment.autoescape)

/-- What a `for` loop iterates over: a sequence that supports `len` (list,
tuple, ...) or a one-shot generator whose pending elements are listed but
whose `len()` raises `TypeError`. -/
inductive Iterable where
  | sized (l : List Value)
  | gen (l : List Value)

/-- The `_iterable` slot of a live `LoopContext`: either a sized sequence
(kept in full), or the not-yet-materialized generator, whose remaining
elements coincide with the cursor (`rest`) because `iter(gen)` is the
generator itself. -/
inductive LoopSrc where
  | sized (full : List Value)
  | gen

/-- Python `class LoopContext` state: `rest` is what the stored `_next` iterator
will still yield, `lengthCache` the `_length` slot, `index0` the cursor. -/
structure LoopContext where
  src : LoopSrc
  rest : List Value
  lengthCache : Option Int
  index0 : Int

/-- Python `LoopContext.__init__` (with the default `enforce_length=False`). -/
def LoopContext.init : Iterable → LoopContext
  | Iterable.sized l => ⟨LoopSrc.sized l, l, Option.none, -1⟩
  | Iterable.gen l => ⟨LoopSrc.gen, l, Option.none, -1⟩

/-- Python `LoopContextIterator.next`: increment `index0`, then pull from `_next`.
The increment happens before the pull, so it survives even when the pull
raises `StopIteration` (modelled by the `Option.none` second component). -/
def LoopContext.next (c : LoopContext) : LoopContext × Option Value :=
  match c.rest with
  | [] => (⟨c.src, c.rest, c.lengthCache, c.index0 + 1⟩, Option.none)
  | v :: rest2 => (⟨c.src, rest2, c.lengthCache, c.index0 + 1⟩, Option.some v)

/-- The `length` property.  On the first query of an unsized iterable the
remaining elements are materialized into a tuple which replaces both
`_iterable` and the `_next` iterator, and the length is
`len(tuple) + index0 + 1`; a sized iterable reports its `len` directly.
Returns the value together with the (possibly mutated) state. -/
def LoopContext.length (c : LoopContext) : Int × LoopContext :=
  match c.lengthCache with
  | Option.some n => (n, c)
  | Option.none =>
    match c.src with
    | LoopSrc.sized full =>
      ((full.length : Int),
        ⟨LoopSrc.sized full, c.rest, Option.some (full.length : Int), c.index0⟩)
    | LoopSrc.gen =>
      let n : Int := (c.rest.length : Int) + c.index0 + 1
      (n, ⟨LoopSrc.sized c.rest, c.rest, Option.some n, c.index0⟩)

/-- The `index` property: `index0 + 1`. -/
def LoopContext.index (c : LoopContext) : Int := c.index0 + 1

/-- The `first` property: `index0 == 0`. -/
def LoopContext.first (c : LoopContext) : Bool := c.index0 = 0

/-- The state invariant of a live `LoopContext`: for a sized source the
cursor position determines `index0` relative to the (cached or direct)
length; a generator source never has a cached length, since the first
length query materializes it into a sized source. -/
def LoopInv (c : LoopContext) : Prop :=
  match c.src with
  | LoopSrc.sized full =>
    match c.lengthCache with
    | Option.none => c.index0 = (full.length : Int) - (c.rest.length : Int) - 1
    | Option.some n => c.index0 = n - (c.rest.length : Int) - 1
  | LoopSrc.gen => c.lengthCache = Option.none

/-- Python `class Macro` (named `MacroObj` here for tooling reasons): the declared
parameter names, the defaults aligned to the tail of the parameter list,
the extension flags and the defining environment.  The wrapped body `_func`
is an external collaborator: `__call__` is modelled up to the argument list
it passes to `_func`. -/
structure MacroObj where
  environment : Environment
  name : Option String
  arguments : List String
  defaults : List Value
  catch_kwargs : Bool
  catch_varargs : Bool
  caller : Bool

/-- One round of the binding loop in `Macro.__call__`: try `args[idx]`,
else `kwargs.pop(name)`, else `self.defaults[idx - self._argument_count]`
(a negative Python index), else an undefined value hinting that the
parameter was not provided.  Returns the bound value and the remaining
keyword arguments. -/
def bindOne (m : MacroObj) (args : List Value) (idx : Nat) (nm : String)
    (kw : Dict) : Value × Dict :=
  match args.get? idx with
  | Option.some v => (v, kw)
  | Option.none =>
    match alookup kw nm with
    | Option.some v => (v, derase kw nm)
    | Option.none =>
      match pyIndex m.defaults ((idx : Int) - (m.arguments.length : Int)) with
      | Option.some v => (v, kw)
      | Option.none =>
        (m.environment.undefined
          (Option.some ("parameter " ++ nm ++ " was not provided"))
          Option.none (Option.some (Value.str nm)), kw)

/-- The `for idx, name in enumerate(self.arguments)` loop, with `idx`
starting at the given position. -/
def bindList (m : MacroObj) (args : List Value) :
    Nat → List String → Dict → List Value × Dict
  | _, [], kw => ([], kw)
  | idx, nm :: rest, kw =>
    let r := bindOne m args idx nm kw
    let r2 := bindList m args (idx + 1) rest r.2
    (r.1 :: r2.1, r2.2)

/-- The undefined value bound in the caller slot when no caller was passed
(or an explicit `None` was). -/
def noCallerUndef (m : MacroObj) : Value :=
  m.environment.undefined (Option.some "No caller defined") Option.none
    (Option.some (Value.str "caller"))

/-- The tail of `Macro.__call__` after the keyword-argument check: append
the positional tail when varargs are caught, otherwise reject excess
positional arguments. -/
def finishVarargs (m : MacroObj) (args : List Value) (arguments : List Value) :
    Except PyErr (List Value) :=
  if m.catch_varargs then
    Except.ok (arguments ++ [Value.list (args.drop m.arguments.length)])
  else if m.arguments.length < args.length then
    Except.error ⟨ExcClass.typeError,
      "macro " ++ pyRepr ((m.name.map Value.str).getD Value.none) ++
        " takes not more than " ++ toString m.arguments.length ++ " argument(s)"⟩
  else Except.ok arguments

/-- Python `Macro.__call__`, modelled up to the argument list handed to the
compiled body: bind each declared parameter, then append — in this fixed
order — the caller (when declared, popping an explicit entry and replacing
`None` by the no-caller undefined), the leftover keyword arguments (when
caught; otherwise any leftover is a `TypeError`), and the positional tail
(when caught; otherwise excess positionals are a `TypeError`). -/
def MacroObj.call (m : MacroObj) (args : List Value) (kwargs : Dict) :
    Except PyErr (List Value) :=
  let b := bindList m args 0 m.arguments kwargs
  let wc :=
    if m.caller then
      let c0 := (alookup b.2 "caller").getD Value.none
      let c1 := if c0.isNone then noCallerUndef m else c0
      (b.1 ++ [c1], derase b.2 "caller")
    else b
  if m.catch_kwargs then
    finishVarargs m args (wc.1 ++ [Value.dict wc.2])
  else
    match wc.2 with
    | [] => finishVarargs m args wc.1
    | kv :: _ =>
      Except.error ⟨ExcClass.typeError,
        "macro " ++ pyRepr ((m.name.map Value.str).getD Value.none) ++
          " takes no keyword argument " ++ kv.1⟩

/-- Modelled from the spec, section 4.4, step (1): the value bound to the
declared parameter at position `idx` — the positional argument at that
index if available, else the keyword argument of the same name (looked up
in the original mapping), else the default aligned to the tail of the
parameter list, else an UndefinedValue hinting that the parameter was not
provided. -/
def specBindParam (m : MacroObj) (args : List Value) (kwargs : Dict)
    (idx : Nat) (nm : String) : Value :=
  match args.get? idx with
  | Option.some v => v
  | Option.none =>
    match alookup kwargs nm with
    | Option.some v => v
    | Option.none =>
      let j : Int := (m.defaults.length : Int) + (idx : Int) - (m.arguments.length : Int)
      if 0 ≤ j then
        match m.defaults.get? j.toNat with
        | Option.some v => v
        | Option.none =>
          m.environment.undefined
            (Option.some ("parameter " ++ nm ++ " was not provided"))
            Option.none (Option.some (Value.str nm))
      else
        m.environment.undefined
          (Option.some ("parameter " ++ nm ++ " was not provided"))
          Option.none (Option.some (Value.str nm))

/-- Modelled from the spec: the keyword arguments left over once every
declared parameter not already satisfied positionally has taken (popped)
its same-named entry. -/
def specLeftover0 (m : MacroObj) (args : List Value) (kwargs : Dict) : Dict :=
  dropKeys kwargs (m.arguments.drop args.length)

/-- Modelled from the spec: the leftover keyword arguments after the
caller entry has additionally been popped (when a caller is declared). -/
def specLeftoverAfterCaller (m : MacroObj) (args : List Value) (kwargs : Dict) : Dict :=
  if m.caller then derase (specLeftover0 m args kwargs) "caller"
  else specLeftover0 m args kwargs

/-- Modelled from the spec, section 4.4, step (2): the value bound in the
caller slot — the popped `caller` keyword entry, with an absent or `None`
entry replaced by the no-caller undefined value. -/
def specCallerVal (m : MacroObj) (args : List Value) (kwargs : Dict) : Value :=
  match alookup (specLeftover0 m args kwargs) "caller" with
  | Option.some v => if v.isNone then noCallerUndef m else v
  | Option.none => noCallerUndef m

/-- A plain environment used by the concrete examples. -/
def env0 : Environment := ⟨false, UndefKind.lenient⟩

/-- The example macro from the spec: parameters `(x, y=10)`, no extension slots. -/
def exMacro : MacroObj :=
  ⟨env0, Option.some "m", ["x", "y"], [Value.int 10], false, false, false⟩

/-- A one-parameter macro declared with a caller slot. -/
def exMacroCaller : MacroObj :=
  ⟨env0, Option.some "mc", ["x"], [], false, false, true⟩

/-- A context whose `vars` binds `x` to an undefined value (as a template
`set x = some_missing_name` would). -/
def c1ctx : Context :=
  ⟨env0, [],
    [("x", Value.undef UndefKind.lenient Option.none Option.none
        (Option.some (Value.str "x")) ExcClass.undefinedError)],
    [], Option.none, []⟩

/-- A context with a single single-layer block `b`. -/
def c4ctx : Context := ⟨env0, [], [], [], Option.none, [("b", [0])]⟩

/-- A context with a two-layer block `b` (layer 0 most derived). -/
def c4ctx2 : Context := ⟨env0, [], [], [], Option.none, [("b", [0, 1])]⟩

/-- A context binding `k` locally and `p` in the parent scope. -/
def c1ctx2 : Context :=
  ⟨env0, [("p", Value.int 3), ("k", Value.int 1)], [("k", Value.int 9)], [],
    Option.none, []⟩

/-- The loop state over the sized one-element sequence `[0]` after a length
query and two `next` calls (the second of which raises `StopIteration`). -/
def loopCE : LoopContext :=
  ((((LoopContext.init (Iterable.sized [Value.int 0])).length).2.next).1.next).1

/-! ### Helper lemmas about the dictionary model -/

theorem dropKeys_nil (kw : Dict) : dropKeys kw [] = kw := by
  induction kw with
  | nil => rfl
  | cons kv rest ih => simp [dropKeys, memStr, ih]

theorem memStr_eq_true_iff (l : List String) (s : String) :
    memStr l s = true ↔ s ∈ l := by
  induction l with
  | nil => simp [memStr]
  | cons x rest ih =>
    by_cases hx : x = s
    · simp [memStr, hx]
    · simp [memStr, hx, ih, Ne.symm hx]

theorem memStr_drop_eq_false (l : List String) (s : String) (k : Nat)
    (h : memStr l s = false) : memStr (l.drop k) s = false := by
  have hs : s ∉ l := by
    intro hmem
    rw [(memStr_eq_true_iff l s).mpr hmem] at h
    exact absurd h (by simp)
  have hs2 : s ∉ l.drop k := fun hmem => hs (List.drop_subset k l hmem)
  rw [Bool.eq_false_iff]
  intro hb
  exact hs2 ((memStr_eq_true_iff _ s).mp hb)

theorem derase_eq_self_of_lookup_none (kw : Dict) (a : String)
    (h : alookup kw a = Option.none) : derase kw a = kw := by
  induction kw with
  | nil => rfl
  | cons kv rest ih =>
    by_cases h1 : kv.1 = a
    · rw [alookup, if_pos h1] at h
      cases h
    · rw [alookup, if_neg h1] at h
      rw [derase, if_neg h1, ih h]

theorem alookup_derase_ne (kw : Dict) (a b : String) (hne : a ≠ b) :
    alookup (derase kw a) b = alookup kw b := by
  induction kw with
  | nil => rfl
  | cons kv rest ih =>
    by_cases h1 : kv.1 = a
    · have h2 : ¬ kv.1 = b := by rw [h1]; exact hne
      rw [derase, if_pos h1, ih, alookup, if_neg h2]
    · rw [derase, if_neg h1]
      by_cases h2 : kv.1 = b
      · rw [alookup, if_pos h2, alookup, if_pos h2]
      · rw [alookup, if_neg h2, alookup, if_neg h2, ih]

theorem dropKeys_cons_erase (kw : Dict) (nm : String) (rest : List String) :
    dropKeys kw (nm :: rest) = dropKeys (derase kw nm) rest := by
  induction kw with
  | nil => rfl
  | cons kv kwt ih =>
    by_cases h1 : kv.1 = nm
    · have hm : memStr (nm :: rest) kv.1 = true := by
        rw [memStr, if_pos h1.symm]
      have hd : derase (kv :: kwt) nm = derase kwt nm := by
        rw [derase, if_pos h1]
      rw [hd, dropKeys, hm, if_pos rfl, ih]
    · have hm : memStr (nm :: rest) kv.1 = memStr rest kv.1 := by
        rw [memStr, if_neg (fun h => h1 h.symm)]
      have hd : derase (kv :: kwt) nm = kv :: derase kwt nm := by
        rw [derase, if_neg h1]
      rw [hd, dropKeys, dropKeys, hm, ih]

theorem alookup_dropKeys_none (kw : Dict) (names : List String) (s : String)
    (h : alookup kw s = Option.none) :
    alookup (dropKeys kw names) s = Option.none := by
  induction kw with
  | nil => rfl
  | cons kv rest ih =>
    by_cases h1 : kv.1 = s
    · rw [alookup, if_pos h1] at h
      cases h
    · rw [alookup, if_neg h1] at h
      rw [dropKeys]
      by_cases h2 : memStr names kv.1 = true
      · rw [h2, if_pos rfl]
        exact ih h
      · rw [Bool.eq_false_iff.mpr h2, if_neg (by simp), alookup, if_neg h1]
        exact ih h

theorem idxOf?_isSome_of_mem (l : List Nat) (a : Nat) (h : a ∈ l) :
    (idxOf? l a).isSome = true := by
  induction l with
  | nil => cases h
  | cons x rest ih =>
    by_cases hx : x = a
    · simp [idxOf?, hx]
    · have : a ∈ rest := by
        cases h with
        | head => exact absurd rfl hx
        | tail _ hm => exact hm
      simp only [idxOf?, if_neg hx]
      cases hr : idxOf? rest a with
      | none => rw [hr] at ih; simp at ih; exact absurd this ih
      | some i => simp

/-! ### Lemmas about the macro binding loop -/

theorem bindList_snd (m : MacroObj) (args : List Value) (suf : List String) :
    ∀ (idx : Nat) (kw : Dict),
    (bindList m args idx suf kw).2 = dropKeys kw (suf.drop (args.length - idx)) := by
  induction suf with
  | nil => intro idx kw; rw [bindList, List.drop_nil, dropKeys_nil]
  | cons nm rest ih =>
    intro idx kw
    rw [bindList]
    by_cases hidx : idx < args.length
    · obtain ⟨v, hv⟩ : ∃ v, args.get? idx = Option.some v := by
        cases hq : args.get? idx with
        | none => rw [List.get?_eq_none] at hq; omega
        | some v => exact ⟨v, rfl⟩
      have hb : bindOne m args idx nm kw = (v, kw) := by rw [bindOne, hv]
      have hdrop : (nm :: rest).drop (args.length - idx)
          = rest.drop (args.length - (idx + 1)) := by
        have h1 : args.length - idx = (args.length - (idx + 1)) + 1 := by omega
        rw [h1, List.drop_succ_cons]
      rw [hb, ih (idx + 1) kw, hdrop]
    · have hv : args.get? idx = Option.none := List.get?_eq_none.mpr (by omega)
      have hd0 : args.length - idx = 0 := by omega
      have hd1 : args.length - (idx + 1) = 0 := by omega
      rw [hd0, List.drop_zero, dropKeys_cons_erase]
      cases hl : alookup kw nm with
      | some v =>
        have hb : bindOne m args idx nm kw = (v, derase kw nm) := by
          rw [bindOne, hv, hl]
        rw [hb, ih (idx + 1) (derase kw nm), hd1, List.drop_zero]
      | none =>
        have hself : derase kw nm = kw := derase_eq_self_of_lookup_none kw nm hl
        cases hp : pyIndex m.defaults ((idx : Int) - (m.arguments.length : Int)) with
        | some v =>
          have hb : bindOne m args idx nm kw = (v, kw) := by
            rw [bindOne, hv, hl, hp]
          rw [hb, ih (idx + 1) kw, hd1, List.drop_zero, hself]
        | none =>
          have hb : bindOne m args idx nm kw
              = (m.environment.undefined
                  (Option.some ("parameter " ++ nm ++ " was not provided"))
                  Option.none (Option.some (Value.str nm)), kw) := by
            rw [bindOne, hv, hl, hp]
          rw [hb, ih (idx + 1) kw, hd1, List.drop_zero, hself]

theorem bindOne_eq_spec (m : MacroObj) (args : List Value) (kwargs : Dict)
    (idx : Nat) (nm : String) (kw : Dict)
    (hidx : idx < m.arguments.length)
    (hagree : alookup kw nm = alookup kwargs nm) :
    (bindOne m args idx nm kw).1 = specBindParam m args kwargs idx nm := by
  rw [bindOne, specBindParam]
  cases hq : args.get? idx with
  | some v => rfl
  | none =>
    rw [hagree]
    cases hl : alookup kwargs nm with
    | some v => rfl
    | none =>
      have hneg : ¬ (0 ≤ (idx : Int) - (m.arguments.length : Int)) := by omega
      rw [pyIndex, if_neg hneg]
      have hj : (m.defaults.length : Int) + ((idx : Int) - (m.arguments.length : Int))
          = (m.defaults.length : Int) + (idx : Int) - (m.arguments.length : Int) := by ring
      rw [hj]
      by_cases hpos :
          0 ≤ (m.defaults.length : Int) + (idx : Int) - (m.arguments.length : Int)
      · rw [if_pos hpos, if_pos hpos]
        cases hg : m.defaults.get?
            ((m.defaults.length : Int) + (idx : Int) - (m.arguments.length : Int)).toNat with
        | some v => rfl
        | none => rfl
      · rw [if_neg hpos, if_neg hpos]

theorem bindList_fst (m : MacroObj) (args : List Value) (kwargs : Dict)
    (suf : List String) :
    ∀ (idx : Nat) (kw : Dict),
    suf.Nodup →
    idx + suf.length ≤ m.arguments.length →
    (∀ s, s ∈ suf → alookup kw s = alookup kwargs s) →
    (bindList m args idx suf kw).1
      = (List.enumFrom idx suf).map (fun p => specBindParam m args kwargs p.1 p.2) := by
  induction suf with
  | nil => intro idx kw _ _ _; rfl
  | cons nm rest ih =>
    intro idx kw hnd hlen hagree
    have hnd2 : rest.Nodup := (List.nodup_cons.mp hnd).2
    have hnm : nm ∉ rest := (List.nodup_cons.mp hnd).1
    have hidx : idx < m.arguments.length := by
      have := hlen
      simp only [List.length_cons] at this
      omega
    have hlen2 : (idx + 1) + rest.length ≤ m.arguments.length := by
      have := hlen
      simp only [List.length_cons] at this
      omega
    have hagree0 : alookup kw nm = alookup kwargs nm := hagree nm (List.mem_cons_self nm rest)
    have hhead : (bindOne m args idx nm kw).1 = specBindParam m args kwargs idx nm :=
      bindOne_eq_spec m args kwargs idx nm kw hidx hagree0
    have hagree2 : ∀ s, s ∈ rest → alookup (bindOne m args idx nm kw).2 s = alookup kwargs s := by
      intro s hs
      have hne : nm ≠ s := fun h => hnm (h ▸ hs)
      rw [bindOne]
      cases hq : args.get? idx with
      | some v => exact hagree s (List.mem_cons_of_mem nm hs)
      | none =>
        cases hl : alookup kw nm with
        | some v =>
          show alookup (derase kw nm) s = _
          rw [alookup_derase_ne kw nm s hne]
          exact hagree s (List.mem_cons_of_mem nm hs)
        | none =>
          cases hp : pyIndex m.defaults ((idx : Int) - (m.arguments.length : Int)) with
          | some v => exact hagree s (List.mem_cons_of_mem nm hs)
          | none => exact hagree s (List.mem_cons_of_mem nm hs)
    rw [bindList]
    show (bindOne m args idx nm kw).1
        :: (bindList m args (idx + 1) rest (bindOne m args idx nm kw).2).1 = _
    rw [hhead, ih (idx + 1) (bindOne m args idx nm kw).2 hnd2 hlen2 hagree2]
    rfl

theorem bindList_cons_irrel (m : MacroObj) (args : List Value) (kv : String × Value)
    (suf : List String) :
    ∀ (idx : Nat) (kw : Dict), memStr suf kv.1 = false →
    bindList m args idx suf (kv :: kw)
      = ((bindList m args idx suf kw).1, kv :: (bindList m args idx suf kw).2) := by
  induction suf with
  | nil => intro idx kw _; rfl
  | cons nm rest ih =>
    intro idx kw hmem
    have hne : ¬ nm = kv.1 := by
      intro h
      rw [memStr, if_pos h] at hmem
      cases hmem
    have hmem2 : memStr rest kv.1 = false := by
      rw [memStr, if_neg hne] at hmem
      exact hmem
    rw [bindList, bindList]
    cases hq : args.get? idx with
    | none =>
      have hlk : alookup (kv :: kw) nm = alookup kw nm := by
        rw [alookup, if_neg (fun h => hne h.symm)]
      cases hl : alookup kw nm with
      | some v =>
        have hb1 : bindOne m args idx nm (kv :: kw) = (v, kv :: derase kw nm) := by
          rw [bindOne, hq, hlk, hl, derase, if_neg (fun h => hne h.symm)]
        have hb2 : bindOne m args idx nm kw = (v, derase kw nm) := by
          rw [bindOne, hq, hl]
        rw [hb1, hb2, ih (idx + 1) (derase kw nm) hmem2]
      | none =>
        cases hp : pyIndex m.defaults ((idx : Int) - (m.arguments.length : Int)) with
        | some v =>
          have hb1 : bindOne m args idx nm (kv :: kw) = (v, kv :: kw) := by
            rw [bindOne, hq, hlk, hl, hp]
          have hb2 : bindOne m args idx nm kw = (v, kw) := by
            rw [bindOne, hq, hl, hp]
          rw [hb1, hb2, ih (idx + 1) kw hmem2]
        | none =>
          have hb1 : bindOne m args idx nm (kv :: kw)
              = (m.environment.undefined
                  (Option.some ("parameter " ++ nm ++ " was not provided"))
                  Option.none (Option.some (Value.str nm)), kv :: kw) := by
            rw [bindOne, hq, hlk, hl, hp]
          have hb2 : bindOne m args idx nm kw
              = (m.environment.undefined
                  (Option.some ("parameter " ++ nm ++ " was not provided"))
                  Option.none (Option.some (Value.str nm)), kw) := by
            rw [bindOne, hq, hl, hp]
          rw [hb1, hb2, ih (idx + 1) kw hmem2]
    | some v =>
      have hb1 : bindOne m args idx nm (kv :: kw) = (v, kv :: kw) := by
        rw [bindOne, hq]
      have hb2 : bindOne m args idx nm kw = (v, kw) := by
        rw [bindOne, hq]
      rw [hb1, hb2, ih (idx + 1) kw hmem2]

/-! ### Claim theorems -/

/-- C1 (counterexample): the claim says `resolve(k)` never returns an
UndefinedValue when `k` is present in `vars`; but when `vars` itself binds
`k` to an undefined value — as template code can (`set x = missing_name`) —
`resolve` returns that bound value, which is an UndefinedValue. -/
theorem resolve_bound_undefined_counterexample :
    (alookup c1ctx.vars "x").isSome = true ∧ (c1ctx.resolve "x").isUndef = true :=
  ⟨rfl, rfl⟩

/-- C1 (amended): for every key present in `vars`, `resolve` returns the
bound value (shadowing `parent`), and the result is an UndefinedValue only
when the bound value itself is one; for a key absent from both `vars` and
`parent`, `resolve` returns a fresh UndefinedValue whose name is the key,
without raising, and `get` returns the default. -/
theorem resolve_and_get_spec (c : Context) (k : String) :
    (∀ v, alookup c.vars k = Option.some v → c.resolve k = v) ∧
    (∀ v, alookup c.vars k = Option.some v → v.isUndef = false →
      (c.resolve k).isUndef = false) ∧
    (alookup c.vars k = Option.none → alookup c.parent k = Option.none →
      c.resolve k = Value.undef c.environment.undefKind Option.none Option.none
          (Option.some (Value.str k)) ExcClass.undefinedError ∧
      ∀ d, c.get k d = d) := by
  refine ⟨?_, ?_, ?_⟩
  · intro v hv
    rw [Context.resolve, hv]
  · intro v hv hu
    rw [Context.resolve, hv]
    exact hu
  · intro h1 h2
    have hr : c.resolve k = Value.undef c.environment.undefKind Option.none Option.none
        (Option.some (Value.str k)) ExcClass.undefinedError := by
      rw [Context.resolve, h1, h2]
      rfl
    refine ⟨hr, ?_⟩
    intro d
    rw [Context.get, Context.getitem]
    rw [hr]
    rfl

/-- C1 witness: the amended theorem applied to a concrete context — the
local binding of `k` shadows both parent bindings, and a missing key gives
the default through `get`. -/
theorem resolve_and_get_spec_witness :
    c1ctx2.resolve "k" = Value.int 9 ∧ c1ctx2.get "zz" (Value.int 7) = Value.int 7 :=
  ⟨(resolve_and_get_spec c1ctx2 "k").1 (Value.int 9) rfl,
   ((resolve_and_get_spec c1ctx2 "zz").2.2 rfl rfl).2 (Value.int 7)⟩

/-- C6: a lenient (default) `Undefined` stringifies to the empty string, is
false in boolean context, iterates to zero elements; arithmetic, ordering
comparisons, attribute/item access and calls all raise the classified
`UndefinedError`; equality and inequality are not overridden and fall back
to default object equality. -/
theorem lenient_undefined_behavior (h : Option String) (o n : Option Value) :
    uStr UndefKind.lenient h o n ExcClass.undefinedError = Except.ok "" ∧
    uNonzero UndefKind.lenient h o n ExcClass.undefinedError = Except.ok false ∧
    uIter UndefKind.lenient h o n ExcClass.undefinedError = Except.ok [] ∧
    (∀ w, uAdd UndefKind.lenient h o n ExcClass.undefinedError w
      = Except.error ⟨ExcClass.undefinedError, undefMsg h o n⟩) ∧
    (∀ w, uMul UndefKind.lenient h o n ExcClass.undefinedError w
      = Except.error ⟨ExcClass.undefinedError, undefMsg h o n⟩) ∧
    (∀ w, uMod UndefKind.lenient h o n ExcClass.undefinedError w
      = Except.error ⟨ExcClass.undefinedError, undefMsg h o n⟩) ∧
    uNeg UndefKind.lenient h o n ExcClass.undefinedError
      = Except.error ⟨ExcClass.undefinedError, undefMsg h o n⟩ ∧
    (∀ w, uLt UndefKind.lenient h o n ExcClass.undefinedError w
      = Except.error ⟨ExcClass.undefinedError, undefMsg h o n⟩) ∧
    (∀ a, uGetattr UndefKind.lenient h o n ExcClass.undefinedError a
      = Except.error ⟨ExcClass.undefinedError, undefMsg h o n⟩) ∧
    (∀ kk, uGetitem UndefKind.lenient h o n ExcClass.undefinedError kk
      = Except.error ⟨ExcClass.undefinedError, undefMsg h o n⟩) ∧
    (∀ ars, uInvoke UndefKind.lenient h o n ExcClass.undefinedError ars
      = Except.error ⟨ExcClass.undefinedError, undefMsg h o n⟩) ∧
    (∀ b, uEq UndefKind.lenient h o n ExcClass.undefinedError b = Except.ok b) ∧
    (∀ b, uNe UndefKind.lenient h o n ExcClass.undefinedError b = Except.ok (!b)) :=
  ⟨rfl, rfl, rfl, fun _ => rfl, fun _ => rfl, fun _ => rfl, rfl, fun _ => rfl,
   fun _ => rfl, fun _ => rfl, fun _ => rfl, fun _ => rfl, fun _ => rfl⟩

/-- C7: on a `StrictUndefined`, stringification, boolean test, iteration,
equality and inequality (and `len`) all raise the classified
`UndefinedError`. -/
theorem strict_undefined_behavior (h : Option String) (o n : Option Value) :
    uStr UndefKind.strict h o n ExcClass.undefinedError
      = Except.error ⟨ExcClass.undefinedError, undefMsg h o n⟩ ∧
    uNonzero UndefKind.strict h o n ExcClass.undefinedError
      = Except.error ⟨ExcClass.undefinedError, undefMsg h o n⟩ ∧
    uIter UndefKind.strict h o n ExcClass.undefinedError
      = Except.error ⟨ExcClass.undefinedError, undefMsg h o n⟩ ∧
    uLen UndefKind.strict h o n ExcClass.undefinedError
      = Except.error ⟨ExcClass.undefinedError, undefMsg h o n⟩ ∧
    (∀ b, uEq UndefKind.strict h o n ExcClass.undefinedError b
      = Except.error ⟨ExcClass.undefinedError, undefMsg h o n⟩) ∧
    (∀ b, uNe UndefKind.strict h o n ExcClass.undefinedError b
      = Except.error ⟨ExcClass.undefinedError, undefMsg h o n⟩) :=
  ⟨rfl, rfl, rfl, rfl, fun _ => rfl, fun _ => rfl⟩

/-- C10: the `self` facade raises `KeyError` for every block name missing
from the blocks mapping of the context, and it never produces an
UndefinedValue fallback — a successful lookup is always a renderer of the
most-derived layer. -/
theorem templateref_missing_block (c : Context) (nm : String) :
    (alookup c.blocks nm = Option.none →
      TemplateReference.getitem c nm = Except.error ⟨ExcClass.keyError, nm⟩) ∧
    (∀ r, TemplateReference.getitem c nm = Except.ok r →
      ∃ b layers, alookup c.blocks nm = Option.some layers ∧
        layers.get? 0 = Option.some b ∧
        r = SuperResult.renderer b nm c.environment.autoescape) := by
  constructor
  · intro hm
    rw [TemplateReference.getitem, hm]
  · intro r hr
    rw [TemplateReference.getitem] at hr
    cases hb : alookup c.blocks nm with
    | none => simp only [hb] at hr; cases hr
    | some layers =>
      simp only [hb] at hr
      cases hl : layers.get? 0 with
      | none => simp only [hl] at hr; cases hr
      | some b =>
        simp only [hl] at hr
        cases hr
        exact ⟨b, layers, rfl, hl, rfl⟩

/-- C10 witness: a missing name raises `KeyError` on a concrete context. -/
theorem templateref_missing_block_witness :
    TemplateReference.getitem c4ctx "zz" = Except.error ⟨ExcClass.keyError, "zz"⟩ :=
  (templateref_missing_block c4ctx "zz").1 rfl

/-- C4 (counterexample): the claim says `super(name, current)` never raises
for every block name and current layer; but when `current` does not occur
among `blocks[name]`, `list.index` raises a `ValueError`, which is not a
`LookupError` and escapes the `try` block. -/
theorem super_valueerror_counterexample :
    Context.super c4ctx "b" 1
      = Except.error ⟨ExcClass.valueError, "list.index(x): x not in list"⟩ :=
  rfl

/-- C4 (amended): for every block name and every current layer that occurs
in `blocks[name]` (or any layer when the name is absent), `super` never
raises: when a next less-derived layer follows the first occurrence of
`current`, it returns a renderer producing exactly the output of that one layer
(one hop, no chaining); when the name is absent or `current` is last, it
returns an UndefinedValue carrying the no-parent-block hint. -/
theorem super_spec (c : Context) (nm : String) (current : Nat)
    (hin : alookup c.blocks nm = Option.none ∨
      ∃ layers, alookup c.blocks nm = Option.some layers ∧ current ∈ layers) :
    (∃ r, Context.super c nm current = Except.ok r) ∧
    (alookup c.blocks nm = Option.none →
      Context.super c nm current = Except.ok (SuperResult.undefined (noParentBlock c nm))) ∧
    (∀ layers i b, alookup c.blocks nm = Option.some layers →
      idxOf? layers current = Option.some i → layers.get? (i + 1) = Option.some b →
      Context.super c nm current
        = Except.ok (SuperResult.renderer b nm c.environment.autoescape) ∧
      ∀ out, SuperResult.render out (SuperResult.renderer b nm c.environment.autoescape)
        = Option.some (String.join (out b))) ∧
    (∀ layers i, alookup c.blocks nm = Option.some layers →
      idxOf? layers current = Option.some i → layers.get? (i + 1) = Option.none →
      Context.super c nm current = Except.ok (SuperResult.undefined (noParentBlock c nm))) := by
  refine ⟨?_, ?_, ?_, ?_⟩
  · cases hb : alookup c.blocks nm with
    | none =>
      exact ⟨SuperResult.undefined (noParentBlock c nm), by rw [Context.super, hb]⟩
    | some layers =>
      have hmem : current ∈ layers := by
        cases hin with
        | inl h => rw [h] at hb; cases hb
        | inr h =>
          obtain ⟨l2, hl2, hm2⟩ := h
          rw [hb] at hl2
          cases hl2
          exact hm2
      have hsome := idxOf?_isSome_of_mem layers current hmem
      cases hi : idxOf? layers current with
      | none => rw [hi] at hsome; cases hsome
      | some i =>
        cases hg : layers.get? (i + 1) with
        | none =>
          refine ⟨SuperResult.undefined (noParentBlock c nm), ?_⟩
          rw [Context.super]
          simp only [hb, hi, hg]
        | some b =>
          refine ⟨SuperResult.renderer b nm c.environment.autoescape, ?_⟩
          rw [Context.super]
          simp only [hb, hi, hg]
  · intro hb
    rw [Context.super, hb]
  · intro layers i b hb hi hg
    constructor
    · rw [Context.super]
      simp only [hb, hi, hg]
    · intro out
      rfl
  · intro layers i hb hi hg
    rw [Context.super]
    simp only [hb, hi, hg]

/-- C4 witness: on a two-layer block, `super` from the most-derived layer
returns the renderer of the second layer; from the last layer it returns
the undefined fallback. -/
theorem super_spec_witness :
    Context.super c4ctx2 "b" 0
      = Except.ok (SuperResult.renderer 1 "b" false) ∧
    Context.super c4ctx2 "b" 1
      = Except.ok (SuperResult.undefined (noParentBlock c4ctx2 "b")) :=
  ⟨((super_spec c4ctx2 "b" 0 (Or.inr ⟨[0, 1], rfl, by simp⟩)).2.2.1
      [0, 1] 0 1 rfl rfl rfl).1,
   (super_spec c4ctx2 "b" 1 (Or.inr ⟨[0, 1], rfl, by simp⟩)).2.2.2
      [0, 1] 1 rfl rfl rfl⟩


/-- Helper: `finishVarargs` fails exactly when varargs are not caught and
the positional arguments exceed the declared parameter count. -/
theorem finishVarargs_error_iff (m : MacroObj) (args : List Value)
    (arguments : List Value) :
    (∃ e, finishVarargs m args arguments = Except.error e)
      ↔ (m.arguments.length < args.length ∧ m.catch_varargs = false) := by
  cases hv : m.catch_varargs
  · by_cases hlen : m.arguments.length < args.length
    · simp [finishVarargs, hv, hlen]
    · simp [finishVarargs, hv, hlen]
  · simp [finishVarargs, hv]

/-- C2: macro parameter binding follows the spec order — positional by
index, else same-named keyword, else the tail-aligned default, else a
"not provided" UndefinedValue — and the extras are appended in the fixed
order caller, leftover kwargs, positional tail; on the `(x, y=10)` example
both `(5,)` and `x=5` bind `x=5, y=10`. -/
theorem macro_binding_order (m : MacroObj) (args : List Value) (kwargs : Dict)
    (hnd : m.arguments.Nodup) :
    (bindList m args 0 m.arguments kwargs).1
      = (List.enumFrom 0 m.arguments).map
          (fun p => specBindParam m args kwargs p.1 p.2) ∧
    (m.caller = true → m.catch_kwargs = true → m.catch_varargs = true →
      MacroObj.call m args kwargs
        = Except.ok ((List.enumFrom 0 m.arguments).map
              (fun p => specBindParam m args kwargs p.1 p.2)
            ++ [specCallerVal m args kwargs]
            ++ [Value.dict (specLeftoverAfterCaller m args kwargs)]
            ++ [Value.list (args.drop m.arguments.length)])) ∧
    MacroObj.call exMacro [Value.int 5] [] = Except.ok [Value.int 5, Value.int 10] ∧
    MacroObj.call exMacro [] [("x", Value.int 5)]
      = Except.ok [Value.int 5, Value.int 10] := by
  have hfst := bindList_fst m args kwargs m.arguments 0 kwargs hnd
    (by omega) (fun s _ => rfl)
  have hb2 : (bindList m args 0 m.arguments kwargs).2 = specLeftover0 m args kwargs := by
    rw [bindList_snd m args m.arguments 0 kwargs, Nat.sub_zero]
    rfl
  refine ⟨hfst, ?_, rfl, rfl⟩
  intro hc hk hv
  have hcv : (if Value.isNone ((alookup (specLeftover0 m args kwargs) "caller").getD Value.none)
        then noCallerUndef m
        else (alookup (specLeftover0 m args kwargs) "caller").getD Value.none)
      = specCallerVal m args kwargs := by
    rw [specCallerVal]
    cases hl : alookup (specLeftover0 m args kwargs) "caller" with
    | none => rfl
    | some v =>
      cases v <;> rfl
  have hla : specLeftoverAfterCaller m args kwargs
      = derase (specLeftover0 m args kwargs) "caller" := by
    rw [specLeftoverAfterCaller, hc, if_pos rfl]
  simp only [MacroObj.call, hb2, hfst, hc, hk, hv, eq_self_iff_true, if_true, hcv,
    finishVarargs, hla]

/-- C8: macro invocation fails with a binding error exactly when keyword
arguments are left over after binding (and the caller pop) without the
kwargs-catching flag, or the positional arguments exceed the declared
parameter count without the varargs-catching flag; in particular a
two-parameter macro without varargs invoked with three positionals
raises the `TypeError` the spec calls MacroBindingError. -/
theorem macro_binding_error_iff (m : MacroObj) (args : List Value) (kwargs : Dict) :
    ((∃ e, MacroObj.call m args kwargs = Except.error e)
      ↔ ((specLeftoverAfterCaller m args kwargs ≠ [] ∧ m.catch_kwargs = false)
        ∨ (m.arguments.length < args.length ∧ m.catch_varargs = false))) ∧
    MacroObj.call exMacro [Value.int 1, Value.int 2, Value.int 3] []
      = Except.error ⟨ExcClass.typeError,
          "macro m takes not more than 2 argument(s)"⟩ := by
  have hb2 : (bindList m args 0 m.arguments kwargs).2 = specLeftover0 m args kwargs := by
    rw [bindList_snd m args m.arguments 0 kwargs, Nat.sub_zero]
    rfl
  refine ⟨?_, rfl⟩
  cases hcal : m.caller with
  | true =>
    have hla : specLeftoverAfterCaller m args kwargs
        = derase (specLeftover0 m args kwargs) "caller" := by
      rw [specLeftoverAfterCaller, hcal, if_pos rfl]
    cases hck : m.catch_kwargs with
    | true =>
      simp only [MacroObj.call, hb2, hcal, hck, eq_self_iff_true, if_true]
      rw [finishVarargs_error_iff]
      simp [hck]
    | false =>
      simp only [MacroObj.call, hb2, hcal, hck, eq_self_iff_true, if_true,
        Bool.false_eq_true, if_false]
      cases hK : derase (specLeftover0 m args kwargs) "caller" with
      | nil =>
        rw [finishVarargs_error_iff]
        simp [hla, hK]
      | cons kv rest =>
        simp [hla, hK]
  | false =>
    have hla : specLeftoverAfterCaller m args kwargs = specLeftover0 m args kwargs := by
      rw [specLeftoverAfterCaller, hcal]
      rfl
    cases hck : m.catch_kwargs with
    | true =>
      simp only [MacroObj.call, hb2, hcal, hck, eq_self_iff_true, if_true,
        Bool.false_eq_true, if_false]
      rw [finishVarargs_error_iff]
      simp [hck]
    | false =>
      simp only [MacroObj.call, hb2, hcal, hck, Bool.false_eq_true, if_false]
      cases hK : specLeftover0 m args kwargs with
      | nil =>
        rw [finishVarargs_error_iff]
        simp [hla, hK]
      | cons kv rest =>
        simp [hla, hK]

/-- C9: on a macro declared with a caller, explicitly passing `caller=None`
is indistinguishable from omitting the caller keyword entirely — both bind
the "No caller defined" UndefinedValue in the caller slot. -/
theorem macro_explicit_none_caller (m : MacroObj) (args : List Value) (kwargs : Dict)
    (hc : m.caller = true)
    (ha : memStr m.arguments "caller" = false)
    (hk : alookup kwargs "caller" = Option.none) :
    MacroObj.call m args (("caller", Value.none) :: kwargs)
      = MacroObj.call m args kwargs ∧
    specCallerVal m args (("caller", Value.none) :: kwargs) = noCallerUndef m := by
  have hcons := bindList_cons_irrel m args ("caller", Value.none) m.arguments 0 kwargs ha
  have hlk : alookup (bindList m args 0 m.arguments kwargs).2 "caller" = Option.none := by
    rw [bindList_snd m args m.arguments 0 kwargs]
    exact alookup_dropKeys_none kwargs _ "caller" hk
  have hder : derase (bindList m args 0 m.arguments kwargs).2 "caller"
      = (bindList m args 0 m.arguments kwargs).2 :=
    derase_eq_self_of_lookup_none _ _ hlk
  have h1 : alookup (("caller", Value.none) :: (bindList m args 0 m.arguments kwargs).2)
      "caller" = Option.some Value.none := by
    rw [alookup, if_pos rfl]
  have h2 : derase (("caller", Value.none) :: (bindList m args 0 m.arguments kwargs).2)
      "caller" = derase (bindList m args 0 m.arguments kwargs).2 "caller" := by
    rw [derase, if_pos rfl]
  constructor
  · simp only [MacroObj.call, hcons, hc, eq_self_iff_true, if_true, h1, h2, hder, hlk,
      Option.getD_some, Option.getD_none, Value.isNone, if_true]
  · rw [specCallerVal, specLeftover0]
    have hmf : memStr (m.arguments.drop args.length) "caller" = false :=
      memStr_drop_eq_false m.arguments "caller" args.length ha
    have hdk : dropKeys (("caller", Value.none) :: kwargs) (m.arguments.drop args.length)
        = ("caller", Value.none) :: dropKeys kwargs (m.arguments.drop args.length) := by
      rw [dropKeys, hmf]
      rfl
    rw [hdk, alookup, if_pos rfl]
    exact rfl



/-- C2 witness: the binding-order theorem applied to the concrete
`(x, y=10)` macro invoked with one positional argument. -/
theorem macro_binding_order_witness :
    MacroObj.call exMacro [Value.int 5] [] = Except.ok [Value.int 5, Value.int 10] :=
  (macro_binding_order exMacro [Value.int 5] [] (by decide)).2.2.1

/-- C9 witness: the explicit-`None`-caller theorem applied to a concrete
one-parameter macro with a caller slot. -/
theorem macro_explicit_none_caller_witness :
    MacroObj.call exMacroCaller [Value.int 1] [("caller", Value.none)]
      = MacroObj.call exMacroCaller [Value.int 1] [] :=
  (macro_explicit_none_caller exMacroCaller [Value.int 1] [] rfl rfl rfl).1

/-- C3: the first `length` query on an unsized source materializes the
remaining elements once and reports `remaining + index0 + 1`, with all
later steps reading the materialized sequence; a sized source reports its
own size whenever queried; concretely, over a one-shot generator yielding
`[x, y]`, `length` is 2 whether queried after zero steps or after one, and
the remaining step still yields `y`. -/
theorem loop_length_spec (c : LoopContext) (x y : Value) :
    (c.src = LoopSrc.gen → c.lengthCache = Option.none →
      (c.length).1 = (c.rest.length : Int) + c.index0 + 1 ∧
      (c.length).2 = ⟨LoopSrc.sized c.rest, c.rest,
          Option.some ((c.rest.length : Int) + c.index0 + 1), c.index0⟩) ∧
    (∀ full, c.src = LoopSrc.sized full → c.lengthCache = Option.none →
      (c.length).1 = (full.length : Int) ∧
      (c.length).2 = ⟨LoopSrc.sized full, c.rest,
          Option.some (full.length : Int), c.index0⟩) ∧
    (∀ n, c.lengthCache = Option.some n → c.length = (n, c)) ∧
    ((LoopContext.init (Iterable.gen [x, y])).length).1 = 2 ∧
    ((LoopContext.init (Iterable.gen [x, y])).next).2 = Option.some x ∧
    ((((LoopContext.init (Iterable.gen [x, y])).next).1).length).1 = 2 ∧
    (((((LoopContext.init (Iterable.gen [x, y])).next).1).length).2).next.2
      = Option.some y := by
  obtain ⟨src, rest, cache, idx⟩ := c
  refine ⟨?_, ?_, ?_, rfl, rfl, rfl, rfl⟩
  · intro hs hc
    cases hs
    cases hc
    exact ⟨rfl, rfl⟩
  · intro full hs hc
    cases hs
    cases hc
    exact ⟨rfl, rfl⟩
  · intro n hc
    cases hc
    rfl

/-- C3 witness: the generator branch of the length theorem applied to a
partially consumed unsized loop state. -/
theorem loop_length_spec_witness :
    ((⟨LoopSrc.gen, [Value.int 1, Value.int 2, Value.int 3], Option.none,
        (-1 : Int)⟩ : LoopContext).length).1 = 3 := by
  have h := (loop_length_spec
    ⟨LoopSrc.gen, [Value.int 1, Value.int 2, Value.int 3], Option.none, (-1 : Int)⟩
    Value.none Value.none).1 rfl rfl
  rw [h.1]
  decide

/-- C5 (counterexample): `index0` is bounded by `length - 1` only while
elements remain — the `next` call that raises `StopIteration` increments
`index0` first, so after exhausting a one-element sequence whose length was
queried, `index0 = 1 > length - 1 = 0`. -/
theorem loop_index0_bound_counterexample :
    loopCE.lengthCache = Option.some 1 ∧ loopCE.index0 = 1 ∧
      ¬ loopCE.index0 ≤ 1 - 1 :=
  ⟨rfl, rfl, by decide⟩

/-- C5 (amended): `index0` starts at -1 and is monotonically non-decreasing
across `next` and `length` operations; once the length is known, `index0`
stays at most `length - 1` after every step that yields an element, and the
final exhausting `next` call (which raises `StopIteration`) leaves
`index0 = length`. -/
theorem loop_index0_invariant :
    (∀ it, (LoopContext.init it).index0 = -1 ∧ LoopInv (LoopContext.init it)) ∧
    (∀ c : LoopContext, c.index0 ≤ ((c.next).1).index0) ∧
    (∀ c : LoopContext, ((c.length).2).index0 = c.index0) ∧
    (∀ (c : LoopContext) v, LoopInv c → (c.next).2 = Option.some v →
      LoopInv (c.next).1) ∧
    (∀ c : LoopContext, LoopInv c → LoopInv (c.length).2) ∧
    (∀ (c : LoopContext) n, LoopInv c → c.lengthCache = Option.some n →
      c.index0 ≤ n - 1) ∧
    (∀ (c : LoopContext) n, LoopInv c → c.lengthCache = Option.some n →
      (c.next).2 = Option.none → ((c.next).1).index0 = n) := by
  refine ⟨?_, ?_, ?_, ?_, ?_, ?_, ?_⟩
  · intro it
    cases it with
    | sized l =>
      refine ⟨rfl, ?_⟩
      show (-1 : Int) = (l.length : Int) - (l.length : Int) - 1
      omega
    | gen l => exact ⟨rfl, rfl⟩
  · intro c
    obtain ⟨src, rest, cache, idx⟩ := c
    cases rest with
    | nil => show idx ≤ idx + 1; omega
    | cons w r => show idx ≤ idx + 1; omega
  · intro c
    obtain ⟨src, rest, cache, idx⟩ := c
    cases cache with
    | some n => rfl
    | none =>
      cases src with
      | sized full => rfl
      | gen => rfl
  · intro c v hinv hsome
    obtain ⟨src, rest, cache, idx⟩ := c
    cases rest with
    | nil => cases hsome
    | cons w r =>
      cases src with
      | sized full =>
        cases cache with
        | none =>
          have h0 : idx = (full.length : Int) - (((w :: r).length : Nat) : Int) - 1 := hinv
          show idx + 1 = (full.length : Int) - ((r.length : Nat) : Int) - 1
          simp only [List.length_cons] at h0
          push_cast at h0 ⊢
          omega
        | some n =>
          have h0 : idx = n - (((w :: r).length : Nat) : Int) - 1 := hinv
          show idx + 1 = n - ((r.length : Nat) : Int) - 1
          simp only [List.length_cons] at h0
          push_cast at h0 ⊢
          omega
      | gen => exact hinv
  · intro c hinv
    obtain ⟨src, rest, cache, idx⟩ := c
    cases cache with
    | some n => exact hinv
    | none =>
      cases src with
      | sized full => exact hinv
      | gen =>
        show idx = ((rest.length : Int) + idx + 1) - (rest.length : Int) - 1
        omega
  · intro c n hinv hc
    obtain ⟨src, rest, cache, idx⟩ := c
    cases hc
    cases src with
    | sized full =>
      have h0 : idx = n - (rest.length : Int) - 1 := hinv
      have h1 : (0 : Int) ≤ (rest.length : Int) := by positivity
      show idx ≤ n - 1
      omega
    | gen => cases hinv
  · intro c n hinv hc hnone
    obtain ⟨src, rest, cache, idx⟩ := c
    cases hc
    cases rest with
    | cons w r => cases hnone
    | nil =>
      cases src with
      | sized full =>
        have h0 : idx = n - ((([] : List Value).length : Nat) : Int) - 1 := hinv
        show idx + 1 = n
        simp only [List.length_nil] at h0
        push_cast at h0
        omega
      | gen => cases hinv

/-- C5 witness: the invariant and the bound applied to a concrete sized
loop whose length has been queried. -/
theorem loop_index0_invariant_witness :
    (((LoopContext.init (Iterable.sized [Value.int 0])).length).2).index0 ≤ 1 - 1 := by
  have h := loop_index0_invariant
  have hinv := (h.1 (Iterable.sized [Value.int 0])).2
  have hinv2 := h.2.2.2.2.1 (LoopContext.init (Iterable.sized [Value.int 0])) hinv
  exact h.2.2.2.2.2.1 (((LoopContext.init (Iterable.sized [Value.int 0])).length).2)
    1 hinv2 rfl


/-- C6 witness: the lenient-behavior theorem applied at concrete slots. -/
theorem lenient_undefined_behavior_witness :
    uStr UndefKind.lenient Option.none Option.none Option.none
      ExcClass.undefinedError = Except.ok "" :=
  (lenient_undefined_behavior Option.none Option.none Option.none).1

/-- C7 witness: the strict-behavior theorem applied at concrete slots. -/
theorem strict_undefined_behavior_witness :
    uStr UndefKind.strict Option.none Option.none (Option.some (Value.str "foo"))
      ExcClass.undefinedError
      = Except.error ⟨ExcClass.undefinedError,
          undefMsg Option.none Option.none (Option.some (Value.str "foo"))⟩ :=
  (strict_undefined_behavior Option.none Option.none (Option.some (Value.str "foo"))).1

/-- C8 witness: the binding-error theorem instantiated at the concrete
three-positional-argument invocation. -/
theorem macro_binding_error_iff_witness :
    MacroObj.call exMacro [Value.int 1, Value.int 2, Value.int 3] []
      = Except.error ⟨ExcClass.typeError,
          "macro m takes not more than 2 argument(s)"⟩ :=
  (macro_binding_error_iff exMacro [Value.int 1, Value.int 2, Value.int 3] []).2

end JinjaRuntime
